import Mathlib

/-!
Verification of the prompt-sanitizer repository (Go).

Byte strings are modelled as `List Nat` (one entry per byte), so that
arbitrary byte values — null bytes, invalid UTF-8 sequences — are
representable exactly.  ASCII literals are converted with `strBytes`.

The two components are:
* `WrapContent` (pkg/wrapper/wrapper.go): the pure envelope formatter.
* `run` (cmd/prompt-sanitizer/main.go): the CLI dispatcher, modelled as a
  function of a parsed configuration and an environment, returning a result
  together with the list of side effects it performs, in order.
-/

/-- Byte list of an ASCII string literal. -/
def strBytes (s : String) : List Nat :=
  s.toList.map Char.toNat

/-- The literal start marker line of the envelope. -/
def startMarker : List Nat := strBytes "<<<EXTERNAL_UNTRUSTED_CONTENT>>>"

/-- The literal end marker line of the envelope. -/
def endMarker : List Nat := strBytes "<<<END_EXTERNAL_UNTRUSTED_CONTENT>>>"

/-- The fixed `Source: ` label that precedes the source string. -/
def sourceTag : List Nat := strBytes "Source: "

/-- The literal separator line `---`. -/
def sepLine : List Nat := strBytes "---"

/-- The newline byte. -/
def nl : Nat := 10

/-- Model of `WrapContent` from pkg/wrapper/wrapper.go: wraps untrusted content with
safety markers.  The Go function is a single `fmt.Sprintf` over a raw string
template; the template bytes are exactly the concatenation below. -/
def WrapContent (content source : List Nat) : List Nat :=
  startMarker ++ [nl] ++ sourceTag ++ source ++ [nl] ++ sepLine ++ [nl]
    ++ content ++ [nl] ++ endMarker

/-- Test whether `pat` occurs at the very start of `l`. -/
def isPrefOf : List Nat → List Nat → Bool
  | [], _ => true
  | _ :: _, [] => false
  | a :: p, b :: l => a == b && isPrefOf p l

/-- Number of positions of `l` (including the empty suffix) at which `pat`
occurs; overlapping occurrences all count. -/
def countOcc (pat : List Nat) : List Nat → Nat
  | [] => if isPrefOf pat [] then 1 else 0
  | a :: l => (if isPrefOf pat (a :: l) then 1 else 0) + countOcc pat l

theorem isPrefOf_nil_iff (pat : List Nat) : isPrefOf pat [] = true ↔ pat = [] := by
  cases pat <;> simp [isPrefOf]

theorem isPrefOf_append_of_isPrefOf (pat c d : List Nat)
    (h : isPrefOf pat c = true) : isPrefOf pat (c ++ d) = true := by
  induction pat generalizing c with
  | nil => simp [isPrefOf]
  | cons a p ih =>
    cases c with
    | nil => simp [isPrefOf] at h
    | cons b l =>
      simp [isPrefOf] at h ⊢
      exact ⟨h.1, ih l h.2⟩

/-- If the byte `nl` does not occur in `pat`, an occurrence of `pat` cannot
reach past a `nl` byte: `pat` starts `c ++ nl :: d` iff it starts `c`. -/
theorem isPrefOf_append_nl (pat c d : List Nat) (hnl : nl ∉ pat) :
    isPrefOf pat (c ++ nl :: d) = isPrefOf pat c := by
  induction c generalizing pat with
  | nil =>
    cases pat with
    | nil => simp [isPrefOf]
    | cons a p =>
      simp only [List.nil_append, isPrefOf]
      have ha : a ≠ nl := by
        intro h; exact hnl (h ▸ List.mem_cons_self a p)
      simp [ha]
  | cons b l ih =>
    cases pat with
    | nil => simp [isPrefOf]
    | cons a p =>
      have hp : nl ∉ p := fun h => hnl (List.mem_cons_of_mem a h)
      simp only [List.cons_append, isPrefOf, List.append_eq, ih p hp]

/-- Occurrence counting distributes over a newline-separated concatenation
when the pattern is nonempty and newline-free. -/
theorem countOcc_append_nl (pat a b : List Nat) (hne : pat ≠ []) (hnl : nl ∉ pat) :
    countOcc pat (a ++ nl :: b) = countOcc pat a + countOcc pat b := by
  induction a with
  | nil =>
    cases pat with
    | nil => exact absurd rfl hne
    | cons x p =>
      have hx : x ≠ nl := by
        intro h; exact hnl (h ▸ List.mem_cons_self x p)
      simp [countOcc, isPrefOf, hx]
  | cons x l ih =>
    have hpref : isPrefOf pat (x :: l ++ nl :: b) = isPrefOf pat (x :: l) :=
      isPrefOf_append_nl pat (x :: l) b hnl
    simp only [List.cons_append, countOcc, List.append_eq] at *
    simp only [hpref, ih]
    omega

/-- If no byte of `c` equals the first byte of the pattern, prepending `c`
adds no occurrences. -/
theorem countOcc_append_left_none (p : Nat) (ps c d : List Nat)
    (h : ∀ x ∈ c, x ≠ p) :
    countOcc (p :: ps) (c ++ d) = countOcc (p :: ps) d := by
  induction c with
  | nil => simp
  | cons x l ih =>
    have hx : x ≠ p := h x (List.mem_cons_self x l)
    have hrest : ∀ y ∈ l, y ≠ p := fun y hy => h y (List.mem_cons_of_mem x hy)
    have hpx : (p == x) = false := by
      simp only [beq_eq_false_iff_ne]
      exact fun h => hx h.symm
    have hpref : isPrefOf (p :: ps) (x :: (l ++ d)) = false := by
      simp [isPrefOf, hpx]
    simp only [List.cons_append, countOcc, List.append_eq, hpref,
      Bool.false_eq_true, if_false, Nat.zero_add]
    exact ih hrest

/-! ## CLI model (cmd/prompt-sanitizer/main.go) -/

/-- The three acquisition modes named by the spec (a tagged variant). -/
inductive AcqMode
  | command
  | file
  | stream
deriving DecidableEq, Repr

/-- The parsed flag state of `run` after `fs.Parse` succeeds.

`sourceFlag` models the Go `flag` package semantics of
`fs.String("source", "Unknown", ...)`: `some v` when the flag was supplied
on the command line with value `v` (possibly empty), `none` when absent, in
which case the default applies.  `filePath` is the `-file` value (the Go
default is the empty string, meaning unset).  `remainingArgs` is
`fs.Args()`, the trailing non-flag arguments.  `showVersion` is the
`-version` boolean flag. -/
structure Config where
  sourceFlag : Option (List Nat)
  filePath : List Nat
  remainingArgs : List (List Nat)
  showVersion : Bool

/-- Outcome of attempting to run a subprocess, as observed through the Go
`cmd.CombinedOutput()`: whether the process could be started, the combined
stdout+stderr bytes it produced, and whether it exited with status zero. -/
structure CmdOutcome where
  started : Bool
  output : List Nat
  exitZero : Bool

/-- The external world `run` interacts with: file contents by path (`none`
means the read fails: missing, directory, unreadable), subprocess outcomes
by argv, and the standard-input bytes (`none` means the read fails). -/
structure Env where
  fileContents : List Nat → Option (List Nat)
  cmdOutcome : List (List Nat) → CmdOutcome
  stdinData : Option (List Nat)

/-- Errors surfaced by `run`, one per acquisition path plus the version
string of the Go error-wrapping (`executing command: ...` etc.). -/
inductive RunError
  | execFailed
  | fileFailed
  | stdinFailed
deriving DecidableEq, Repr

/-- Side effects of one invocation, in order of occurrence. -/
inductive Effect
  | execCmd (argv : List (List Nat))
  | fileRead (path : List Nat)
  | stdinRead
  | stdoutWrite (bytes : List Nat)
deriving DecidableEq, Repr

/-- Model of `executeCommand` from main.go: `cmd.CombinedOutput()` returns an error
when the process cannot be started or exits non-zero; in that case
`executeCommand` discards the captured output and returns the error. -/
def executeCommand (env : Env) (args : List (List Nat)) :
    Except RunError (List Nat) :=
  let o := env.cmdOutcome args
  if o.started && o.exitZero then Except.ok o.output
  else Except.error RunError.execFailed

/-- Model of `readFile` from main.go: `os.ReadFile` of the whole file. -/
def readFile (env : Env) (path : List Nat) : Except RunError (List Nat) :=
  match env.fileContents path with
  | some bytes => Except.ok bytes
  | none => Except.error RunError.fileFailed

/-- Model of `readFromReader` from main.go applied to stdin: `io.ReadAll`. -/
def readFromReader (env : Env) : Except RunError (List Nat) :=
  match env.stdinData with
  | some bytes => Except.ok bytes
  | none => Except.error RunError.stdinFailed

/-- The acquisition dispatch of `run` (main.go lines 44–63), kept as the
if-chain of the source: command mode when `fs.Args()` is non-empty, else file
mode when `-file` is non-empty, else stdin mode.  Returns the result
together with the single acquisition effect performed. -/
def acquire (cfg : Config) (env : Env) :
    Except RunError (List Nat) × Effect :=
  if cfg.remainingArgs ≠ [] then
    (executeCommand env cfg.remainingArgs, Effect.execCmd cfg.remainingArgs)
  else if cfg.filePath ≠ [] then
    (readFile env cfg.filePath, Effect.fileRead cfg.filePath)
  else
    (readFromReader env, Effect.stdinRead)

/-- The source label used by `run`: the `-source` value when the flag was
supplied (even if empty), else the flag default `"Unknown"`. -/
def sourceLabel (cfg : Config) : List Nat :=
  cfg.sourceFlag.getD (strBytes "Unknown")

/-- The bytes of the Go build-time `Version` variable (default `"dev"`);
`run` prints it and returns when `-version` is set. -/
def versionBytes : List Nat := strBytes "dev"

/-- Model of `run` from main.go after a successful `fs.Parse`: handle `-version`,
otherwise acquire content by the dispatch above, and on success write the
wrapped content followed by one newline (`fmt.Fprintln`) to stdout.
Returns the result and the ordered list of side effects performed. -/
def run (cfg : Config) (env : Env) : Except RunError Unit × List Effect :=
  if cfg.showVersion then
    (Except.ok (), [Effect.stdoutWrite (versionBytes ++ [nl])])
  else
    let a := acquire cfg env
    match a.1 with
    | Except.error e => (Except.error e, [a.2])
    | Except.ok content =>
      (Except.ok (),
        [a.2, Effect.stdoutWrite (WrapContent content (sourceLabel cfg) ++ [nl])])

/-- The view the spec takes of the dispatch: a mode chosen once, with precedence
command > file > stream. -/
def selectMode (cfg : Config) : AcqMode :=
  if cfg.remainingArgs ≠ [] then AcqMode.command
  else if cfg.filePath ≠ [] then AcqMode.file
  else AcqMode.stream

/-- The acquisition effect each mode performs. -/
def modeEffect (m : AcqMode) (cfg : Config) : Effect :=
  match m with
  | AcqMode.command => Effect.execCmd cfg.remainingArgs
  | AcqMode.file => Effect.fileRead cfg.filePath
  | AcqMode.stream => Effect.stdinRead

/-- Is an effect one of the three acquisition side effects? -/
def isAcquisition : Effect → Bool
  | Effect.execCmd _ => true
  | Effect.fileRead _ => true
  | Effect.stdinRead => true
  | Effect.stdoutWrite _ => false

/-- The first newline-delimited line of a byte list. -/
def takeLine : List Nat → List Nat
  | [] => []
  | b :: l => if b == nl then [] else b :: takeLine l

/-- Everything after the first newline of a byte list. -/
def dropLine : List Nat → List Nat
  | [] => []
  | b :: l => if b == nl then l else dropLine l

/-- The second newline-delimited line of a byte list. -/
def secondLine (l : List Nat) : List Nat := takeLine (dropLine l)

theorem dropLine_append_nl (a b : List Nat) (h : ∀ x ∈ a, x ≠ nl) :
    dropLine (a ++ nl :: b) = b := by
  induction a with
  | nil => simp [dropLine]
  | cons x l ih =>
    have hx : x ≠ nl := h x (List.mem_cons_self x l)
    have hrest : ∀ y ∈ l, y ≠ nl := fun y hy => h y (List.mem_cons_of_mem x hy)
    simp only [List.cons_append, dropLine]
    rw [if_neg (by simp [hx])]
    exact ih hrest

theorem takeLine_append_nl (a b : List Nat) (h : ∀ x ∈ a, x ≠ nl) :
    takeLine (a ++ nl :: b) = a := by
  induction a with
  | nil => simp [takeLine]
  | cons x l ih =>
    have hx : x ≠ nl := h x (List.mem_cons_self x l)
    have hrest : ∀ y ∈ l, y ≠ nl := fun y hy => h y (List.mem_cons_of_mem x hy)
    simp only [List.cons_append, takeLine, List.append_eq]
    rw [if_neg (by simp [hx])]
    rw [ih hrest]

/-- Sample invocation: no flags at all, stdin holds two bytes. -/
def cfgStdin : Config := ⟨none, [], [], false⟩

/-- Sample invocation: `-file missing.txt` on a file that does not exist. -/
def cfgFile : Config := ⟨none, strBytes "missing.txt", [], false⟩

/-- Sample invocation: `-source ""` with stdin input. -/
def cfgEmptySource : Config := ⟨some [], [], [], false⟩

/-- Sample environment: no readable files, every subprocess starts and
exits zero with empty output, stdin holds the bytes of `"hi"`. -/
def envSample : Env :=
  ⟨fun _ => none, fun _ => ⟨true, [], true⟩, some (strBytes "hi")⟩

/-! ## Wrapper claims -/

/-- C1: for every content and source, `WrapContent content source` starts
with the start marker immediately followed by a newline, and ends with a
newline immediately followed by the end marker with nothing after it — in
particular no trailing newline is appended by `WrapContent` itself. -/
theorem wrap_markers_delimit (content source : List Nat) :
    (∃ rest, WrapContent content source = startMarker ++ nl :: rest) ∧
    (∃ front, WrapContent content source = front ++ nl :: endMarker) := by
  constructor
  · refine ⟨sourceTag ++ source ++ nl :: sepLine ++ nl :: content ++ nl :: endMarker, ?_⟩
    simp [WrapContent, List.append_assoc]
  · refine ⟨startMarker ++ nl :: sourceTag ++ source ++ nl :: sepLine ++ nl :: content, ?_⟩
    simp [WrapContent, List.append_assoc]

/-- C2: for every content and source, the output contains the source
verbatim immediately after the literal `Source: `, and contains the content
verbatim as a contiguous sublist — unchanged in byte length and byte
values, since both are arbitrary byte lists embedded by concatenation. -/
theorem wrap_verbatim (content source : List Nat) :
    (∃ a b, WrapContent content source = a ++ (sourceTag ++ source) ++ b) ∧
    (∃ a b, WrapContent content source = a ++ content ++ b) := by
  constructor
  · refine ⟨startMarker ++ [nl],
      nl :: sepLine ++ nl :: content ++ nl :: endMarker, ?_⟩
    simp [WrapContent, List.append_assoc]
  · refine ⟨startMarker ++ nl :: sourceTag ++ source ++ nl :: sepLine ++ [nl],
      nl :: endMarker, ?_⟩
    simp [WrapContent, List.append_assoc]

/-- C3: `WrapContent "Hello, world!" "Test Source"` is exactly the five
newline-joined lines of the concrete scenario in the spec, and wrapping empty
content with source `X` yields the same structure with an empty fourth
line. -/
theorem wrap_concrete :
    WrapContent (strBytes "Hello, world!") (strBytes "Test Source")
      = strBytes "<<<EXTERNAL_UNTRUSTED_CONTENT>>>\nSource: Test Source\n---\nHello, world!\n<<<END_EXTERNAL_UNTRUSTED_CONTENT>>>" ∧
    WrapContent [] (strBytes "X")
      = strBytes "<<<EXTERNAL_UNTRUSTED_CONTENT>>>\nSource: X\n---\n\n<<<END_EXTERNAL_UNTRUSTED_CONTENT>>>" := by
  constructor
  · decide
  · decide

/-- Occurrence count of a pattern beginning with `<` (byte 60) and free of
newlines, over the wrapped output: the fixed `Source: ` and `---` segments
contribute nothing, so only the markers, the source and the content count. -/
theorem countOcc_WrapContent (ps : List Nat) (hnl : nl ∉ (60 :: ps))
    (content source : List Nat) :
    countOcc (60 :: ps) (WrapContent content source)
      = countOcc (60 :: ps) startMarker + countOcc (60 :: ps) source
        + countOcc (60 :: ps) content + countOcc (60 :: ps) endMarker := by
  have hne : (60 :: ps) ≠ [] := by simp
  have htag : ∀ x ∈ sourceTag, x ≠ 60 := by decide
  have hsep : ∀ x ∈ sepLine, x ≠ 60 := by decide
  have hsep0 : countOcc (60 :: ps) sepLine = 0 := by
    have h := countOcc_append_left_none 60 ps sepLine [] hsep
    rw [List.append_nil] at h
    rw [h]
    simp [countOcc, isPrefOf]
  have e1 : WrapContent content source
      = startMarker ++ nl :: ((sourceTag ++ source)
          ++ nl :: (sepLine ++ nl :: (content ++ nl :: endMarker))) := by
    simp [WrapContent, List.append_assoc]
  rw [e1, countOcc_append_nl _ _ _ hne hnl, countOcc_append_nl _ _ _ hne hnl,
    countOcc_append_nl _ _ _ hne hnl, countOcc_append_nl _ _ _ hne hnl,
    countOcc_append_left_none 60 ps sourceTag source htag, hsep0]
  omega

/-- C4 counterexample: with content empty and the source string equal to
the start marker itself, the start marker occurs twice in the output, not
`1 + (occurrences in content) = 1`. -/
theorem wrap_marker_count_counterexample :
    ¬ (countOcc startMarker (WrapContent [] startMarker)
        = 1 + countOcc startMarker ([] : List Nat)) := by
  decide

/-- C4 (amended): for every content and source, the number of occurrences
of each marker token in `WrapContent content source` equals 1 plus its
occurrences inside `content` plus its occurrences inside `source`; in
particular re-wrapping already-wrapped text duplicates markers rather than
being idempotent. -/
theorem wrap_marker_count (content source : List Nat) :
    countOcc startMarker (WrapContent content source)
      = 1 + countOcc startMarker content + countOcc startMarker source ∧
    countOcc endMarker (WrapContent content source)
      = 1 + countOcc endMarker content + countOcc endMarker source := by
  have hsm : startMarker = 60 :: strBytes "<<EXTERNAL_UNTRUSTED_CONTENT>>>" := rfl
  have hem : endMarker = 60 :: strBytes "<<END_EXTERNAL_UNTRUSTED_CONTENT>>>" := rfl
  have h1 := countOcc_WrapContent (strBytes "<<EXTERNAL_UNTRUSTED_CONTENT>>>")
    (by decide) content source
  have h2 := countOcc_WrapContent (strBytes "<<END_EXTERNAL_UNTRUSTED_CONTENT>>>")
    (by decide) content source
  rw [← hsm] at h1
  rw [← hem] at h2
  have c1 : countOcc startMarker startMarker = 1 := by decide
  have c2 : countOcc startMarker endMarker = 0 := by decide
  have c3 : countOcc endMarker startMarker = 0 := by decide
  have c4 : countOcc endMarker endMarker = 1 := by decide
  constructor
  · rw [h1, c1, c2]; omega
  · rw [h2, c3, c4]; omega

/-- C8: for every content and source, the byte length of the wrapped output
is the byte length of the content plus the byte length of the source plus
the fixed envelope overhead of 83 bytes — so content of any size, e.g. a
10 MB blob, is wrapped without truncation. -/
theorem wrap_length (content source : List Nat) :
    (WrapContent content source).length = content.length + source.length + 83 := by
  have h1 : startMarker.length = 32 := rfl
  have h2 : endMarker.length = 36 := rfl
  have h3 : sourceTag.length = 8 := rfl
  have h4 : sepLine.length = 3 := rfl
  simp only [WrapContent, List.length_append, List.length_cons,
    List.length_singleton, List.length_nil, h1, h2, h3, h4]
  omega

/-! ## CLI claims -/

/-- Sample invocation: command mode running `true` with no other flags. -/
def cfgCmd : Config := ⟨none, [], [strBytes "true"], false⟩

theorem acquire_effect_eq (cfg : Config) (env : Env) :
    (acquire cfg env).2 = modeEffect (selectMode cfg) cfg := by
  unfold acquire selectMode modeEffect
  by_cases h1 : cfg.remainingArgs = []
  · by_cases h2 : cfg.filePath = []
    · simp [h1, h2]
    · simp [h1, h2]
  · simp [h1]

theorem isAcquisition_modeEffect (m : AcqMode) (cfg : Config) :
    isAcquisition (modeEffect m cfg) = true := by
  cases m <;> rfl

theorem run_eq_of_error (cfg : Config) (env : Env) (e : RunError)
    (hv : cfg.showVersion = false)
    (h : (acquire cfg env).1 = Except.error e) :
    run cfg env = (Except.error e, [(acquire cfg env).2]) := by
  simp only [run, hv, Bool.false_eq_true, if_false, h]

theorem run_eq_of_ok (cfg : Config) (env : Env) (content : List Nat)
    (hv : cfg.showVersion = false)
    (h : (acquire cfg env).1 = Except.ok content) :
    run cfg env = (Except.ok (), [(acquire cfg env).2,
      Effect.stdoutWrite (WrapContent content (sourceLabel cfg) ++ [nl])]) := by
  simp only [run, hv, Bool.false_eq_true, if_false, h]

/-- C5: the dispatch of `run` selects exactly one of the three mutually
exclusive acquisition modes with precedence command > file > stream —
command mode iff the trailing argument list is non-empty, file mode iff it
is empty and a non-empty file path was supplied, stream mode otherwise —
and a non-version invocation performs exactly the acquisition effect of the
selected mode, producing one content blob. -/
theorem run_mode_precedence (cfg : Config) (env : Env)
    (hv : cfg.showVersion = false) :
    (selectMode cfg = AcqMode.command ↔ cfg.remainingArgs ≠ []) ∧
    (selectMode cfg = AcqMode.file ↔ (cfg.remainingArgs = [] ∧ cfg.filePath ≠ [])) ∧
    (selectMode cfg = AcqMode.stream ↔ (cfg.remainingArgs = [] ∧ cfg.filePath = [])) ∧
    List.filter isAcquisition (run cfg env).2
      = [modeEffect (selectMode cfg) cfg] := by
  refine ⟨?_, ?_, ?_, ?_⟩
  · unfold selectMode
    by_cases h1 : cfg.remainingArgs = [] <;> by_cases h2 : cfg.filePath = [] <;>
      simp [h1, h2]
  · unfold selectMode
    by_cases h1 : cfg.remainingArgs = [] <;> by_cases h2 : cfg.filePath = [] <;>
      simp [h1, h2]
  · unfold selectMode
    by_cases h1 : cfg.remainingArgs = [] <;> by_cases h2 : cfg.filePath = [] <;>
      simp [h1, h2]
  · cases hacq : (acquire cfg env).1 with
    | error e =>
      rw [run_eq_of_error cfg env e hv hacq]
      simp [acquire_effect_eq, List.filter, isAcquisition_modeEffect]
    | ok content =>
      rw [run_eq_of_ok cfg env content hv hacq, acquire_effect_eq]
      cases h : selectMode cfg <;>
        simp [modeEffect, List.filter, isAcquisition]

/-- C6: whenever acquisition fails, `run` returns the error, performs only
the single acquisition effect of the selected mode (no fallback between
modes), writes nothing to standard output — so `WrapContent` is never
reached — and a subprocess that starts but exits non-zero is a failure
regardless of the output it produced. -/
theorem run_failure_no_output (cfg : Config) (env : Env) (e : RunError)
    (hv : cfg.showVersion = false)
    (hfail : (acquire cfg env).1 = Except.error e) :
    (run cfg env).1 = Except.error e ∧
    (run cfg env).2 = [modeEffect (selectMode cfg) cfg] ∧
    (∀ bytes, Effect.stdoutWrite bytes ∉ (run cfg env).2) ∧
    (∀ args o, env.cmdOutcome args = o → o.started = true → o.exitZero = false →
      executeCommand env args = Except.error RunError.execFailed) := by
  have hrun := run_eq_of_error cfg env e hv hfail
  refine ⟨by rw [hrun], ?_, ?_, ?_⟩
  · rw [hrun]
    simp [acquire_effect_eq]
  · intro bytes hmem
    rw [hrun] at hmem
    simp only [List.mem_singleton] at hmem
    rw [acquire_effect_eq] at hmem
    cases h : selectMode cfg <;> rw [h] at hmem <;> simp [modeEffect] at hmem
  · intro args o ho hs hz
    unfold executeCommand
    simp [ho, hs, hz]

/-- C7: on successful acquisition, `run` writes to standard output exactly
the wrapped content followed by one trailing newline and nothing else, and
the source label is the flag default `"Unknown"` when the `-source` flag is
absent. -/
theorem run_success_output (cfg : Config) (env : Env) (content : List Nat)
    (hv : cfg.showVersion = false)
    (hok : (acquire cfg env).1 = Except.ok content) :
    (run cfg env).1 = Except.ok () ∧
    (run cfg env).2 = [modeEffect (selectMode cfg) cfg,
      Effect.stdoutWrite (WrapContent content (sourceLabel cfg) ++ [nl])] ∧
    (cfg.sourceFlag = none → sourceLabel cfg = strBytes "Unknown") := by
  have hrun := run_eq_of_ok cfg env content hv hok
  refine ⟨by rw [hrun], ?_, ?_⟩
  · rw [hrun, acquire_effect_eq]
  · intro h
    simp [sourceLabel, h]

/-- C9: each non-version invocation of `run` performs exactly one
acquisition side effect; on success the trace is exactly that acquisition
followed by the single full write to standard output; and in command or
file mode standard input is never read. -/
theorem run_effect_frame (cfg : Config) (env : Env)
    (hv : cfg.showVersion = false) :
    (List.filter isAcquisition (run cfg env).2).length = 1 ∧
    ((run cfg env).1 = Except.ok () →
      ∃ w, (run cfg env).2 = [modeEffect (selectMode cfg) cfg,
        Effect.stdoutWrite w]) ∧
    (selectMode cfg ≠ AcqMode.stream → Effect.stdinRead ∉ (run cfg env).2) := by
  cases hacq : (acquire cfg env).1 with
  | error e =>
    have hrun := run_eq_of_error cfg env e hv hacq
    refine ⟨?_, ?_, ?_⟩
    · rw [hrun]
      simp [acquire_effect_eq, List.filter, isAcquisition_modeEffect]
    · intro hok
      rw [hrun] at hok
      simp at hok
    · intro hm hmem
      rw [hrun] at hmem
      simp only [List.mem_singleton] at hmem
      rw [acquire_effect_eq] at hmem
      cases h : selectMode cfg <;> rw [h] at hmem <;>
        simp [modeEffect] at hmem <;> exact hm h
  | ok content =>
    have hrun := run_eq_of_ok cfg env content hv hacq
    refine ⟨?_, ?_, ?_⟩
    · rw [hrun, acquire_effect_eq]
      cases h : selectMode cfg <;>
        simp [modeEffect, List.filter, isAcquisition]
    · intro _
      rw [hrun, acquire_effect_eq]
      exact ⟨_, rfl⟩
    · intro hm hmem
      rw [hrun] at hmem
      simp only [List.mem_cons, List.mem_singleton] at hmem
      rcases hmem with hmem | hmem
      · rw [acquire_effect_eq] at hmem
        cases h : selectMode cfg <;> rw [h] at hmem <;>
          simp [modeEffect] at hmem <;> exact hm h
      · simp at hmem

/-- C10: supplying the `-source` flag with an explicit empty value is
distinguished from omitting it: the label used is the empty string rather
than the default `"Unknown"`, so the second line of the output is exactly
`Source: ` (trailing space, empty label). -/
theorem run_empty_source_flag (cfg : Config) (env : Env) (content : List Nat)
    (hv : cfg.showVersion = false)
    (hsrc : cfg.sourceFlag = some [])
    (hok : (acquire cfg env).1 = Except.ok content) :
    sourceLabel cfg = [] ∧
    sourceLabel cfg ≠ strBytes "Unknown" ∧
    secondLine (WrapContent content (sourceLabel cfg) ++ [nl]) = sourceTag ∧
    (run cfg env).2 = [modeEffect (selectMode cfg) cfg,
      Effect.stdoutWrite (WrapContent content [] ++ [nl])] := by
  have hsl : sourceLabel cfg = [] := by simp [sourceLabel, hsrc]
  have hrun := run_eq_of_ok cfg env content hv hok
  refine ⟨hsl, ?_, ?_, ?_⟩
  · rw [hsl]
    decide
  · rw [hsl]
    have e1 : WrapContent content [] ++ [nl]
        = startMarker ++ nl :: (sourceTag
            ++ nl :: (sepLine ++ nl :: (content ++ nl :: (endMarker ++ [nl])))) := by
      simp [WrapContent, List.append_assoc]
    rw [e1]
    unfold secondLine
    rw [dropLine_append_nl startMarker _ (by decide),
      takeLine_append_nl sourceTag _ (by decide)]
  · rw [hrun, acquire_effect_eq, hsl]

/-- C5 witness: the no-flag stdin invocation concretely performs exactly
the acquisition effect of its selected mode. -/
theorem run_mode_precedence_witness :
    List.filter isAcquisition (run cfgStdin envSample).2
      = [modeEffect (selectMode cfgStdin) cfgStdin] :=
  (run_mode_precedence cfgStdin envSample rfl).2.2.2

/-- C6 witness: `-file missing.txt` in an environment with no readable
files returns the file error and writes nothing to standard output. -/
theorem run_failure_no_output_witness :
    (run cfgFile envSample).1 = Except.error RunError.fileFailed ∧
    ∀ bytes, Effect.stdoutWrite bytes ∉ (run cfgFile envSample).2 := by
  have h := run_failure_no_output cfgFile envSample RunError.fileFailed rfl rfl
  exact ⟨h.1, h.2.2.1⟩

/-- C7 witness: the no-flag stdin invocation succeeds and uses the default
label `"Unknown"`. -/
theorem run_success_output_witness :
    (run cfgStdin envSample).1 = Except.ok () ∧
    sourceLabel cfgStdin = strBytes "Unknown" := by
  have h := run_success_output cfgStdin envSample (strBytes "hi") rfl rfl
  exact ⟨h.1, h.2.2 rfl⟩

/-- C9 witness: a command-mode invocation performs exactly one acquisition
effect and never reads standard input. -/
theorem run_effect_frame_witness :
    (List.filter isAcquisition (run cfgCmd envSample).2).length = 1 ∧
    Effect.stdinRead ∉ (run cfgCmd envSample).2 := by
  have h := run_effect_frame cfgCmd envSample rfl
  exact ⟨h.1, h.2.2 (by decide)⟩

/-- C10 witness: with `-source ""` the label is empty and the second output
line is exactly `Source: `. -/
theorem run_empty_source_flag_witness :
    sourceLabel cfgEmptySource = [] ∧
    secondLine (WrapContent (strBytes "hi") (sourceLabel cfgEmptySource) ++ [nl])
      = sourceTag := by
  have h := run_empty_source_flag cfgEmptySource envSample (strBytes "hi") rfl rfl rfl
  exact ⟨h.1, h.2.2.1⟩
